import Mathlib

/-!
Shallow embedding of the bluish pipeline runner's execution engine
(`src/bluish`), covering the parts needed to settle the frozen claims:

* the expression engine (`bluish/expressions.py`: `concat`, the
  `ExprTransformer` evaluation methods, and the `${{ ... }}` fragment
  scanner of `create_parser`),
* the node/context value model (`bluish/contexts/__init__.py`:
  `_try_get_value`, `ContextNode.get_value`, `_expand_expr`),
* the dependency-walking dispatcher
  (`bluish/contexts/workflow.py`: `WorkflowContext.__dispatch_job`),
* matrix expansion (`bluish/nodes/__init__.py`: `_generate_matrices`,
  mirroring `itertools.product`),
* the dispatch status machine (`bluish/contexts/step.py`,
  `bluish/contexts/job.py`, `bluish/contexts/workflow.py`), and
* the command guard of `JobContext.exec` (`bluish/contexts/job.py`).

Python strings are modelled as Lean `String`; Python `None`-able values as
`Option`; raised exceptions as `Except`; the interpreter's call stack as an
explicit fuel parameter (running out of fuel corresponds to Python's
stack-exhaustion `RecursionError`).  Machine floats do not occur in any
claim and numeric values are restricted to Python `int`/`bool` (Python's
`bool` is a subclass of `int`, which matters for `isinstance` tests).
-/

deriving instance DecidableEq for Except

namespace Bluish

/-- Embedding of `bluish/process.py` `ProcessResult`: stdout, stderr and return code. -/
structure ProcessResult where
  stdout : String
  stderr : String
  returncode : Int
deriving DecidableEq, Repr

/-- The default-constructed empty `ProcessResult()`. -/
def ProcessResult.empty : ProcessResult := ⟨"", "", 0⟩

/-- Property `ProcessResult.failed`: `returncode != 0`. -/
def ProcessResult.failed (r : ProcessResult) : Bool := r.returncode != 0

/-- Embedding of `bluish/core.py` `ExecutionStatus`. -/
inductive ExecutionStatus where
  | PENDING
  | RUNNING
  | FINISHED
  | SKIPPED
deriving DecidableEq, Repr

/-- A Python runtime value as it flows through the expression engine:
`None`, `bool`, `int`, `str`, or `SafeString` (`bluish/safe_string.py`,
a `str` subclass carrying a parallel `redacted_value`).  Python floats are
outside the embedding (no claim exercises them). -/
inductive Value where
  | vNone
  | vBool (b : Bool)
  | vInt (n : Int)
  | vStr (s : String)
  | vSafe (value redactedValue : String)
deriving DecidableEq, Repr

namespace Value

/-- Python `str(x)` for the embedded values. -/
def pyStr : Value → String
  | vNone => "None"
  | vBool true => "True"
  | vBool false => "False"
  | vInt n => toString n
  | vStr s => s
  | vSafe s _ => s

/-- Python `a.redacted_value if isinstance(a, SafeString) else str(a)`
(the per-operand redacted rendering used by `concat`). -/
def redactedOf : Value → String
  | vSafe _ r => r
  | v => pyStr v

/-- Python `isinstance(x, (int, float))`.  Python `bool` is an `int` subclass, so
booleans count as numeric; strings — numeric-looking or not — do not. -/
def isNumeric : Value → Bool
  | vInt _ => true
  | vBool _ => true
  | _ => false

/-- Python `isinstance(x, str)` (true for both `str` and `SafeString`). -/
def isStr : Value → Bool
  | vStr _ => true
  | vSafe _ _ => true
  | _ => false

/-- The numeric value of an `int`/`bool` operand (`True == 1`). -/
def toInt : Value → Int
  | vInt n => n
  | vBool true => 1
  | vBool false => 0
  | _ => 0

end Value

open Value

/-- Embedding of `bluish/expressions.py` `concat(a, b)`: `None` operands pass the other
operand through unchanged; otherwise the result is a `SafeString` whose
real value is `str(a) + str(b)` and whose redacted value concatenates each
operand's redacted rendering. -/
def concat (a b : Value) : Value :=
  match a, b with
  | vNone, b => b
  | a, vNone => a
  | a, b => vSafe (pyStr a ++ pyStr b) (redactedOf a ++ redactedOf b)

/-- Errors raised (or propagated) by the expression/value machinery.
`outOfFuel` models Python exhausting its interpreter stack
(`RecursionError`); the others model the `ValueError`/`TypeError`
raises visible in the source. -/
inductive EvalErr where
  | outOfFuel
  | typeError
  | varNotFound (name : String)
  | ambiguousRef (name : String)
  | jobNotFound (id : String)
  | stepNotFound (id : String)
  | nodeKindError
  | unpackError
  | larkParseError (fragment : String)
deriving DecidableEq, Repr

/-- Python `a + b` for the case `isinstance(a,(int,float)) or
isinstance(b,(int,float))` taken by `ExprTransformer.add`: both operands
numeric adds them; a numeric operand mixed with a non-numeric one raises
`TypeError`. -/
def pyAdd (a b : Value) : Except EvalErr Value :=
  if a.isNumeric && b.isNumeric then .ok (vInt (a.toInt + b.toInt))
  else .error .typeError

/-- Embedding of `ExprTransformer.add(a, b)`: Python `+` when either operand is numeric,
else `concat`. -/
def addOp (a b : Value) : Except EvalErr Value :=
  if a.isNumeric || b.isNumeric then pyAdd a b
  else .ok (concat a b)

/-- The expression AST produced by the lark grammar of
`bluish/expressions.py`, restricted to the productions the claims
exercise: integer `NUMBER` literals, `STRING` literals (already
quote-stripped, as `ExprTransformer.str` does), dotted `VARIABLE`
references, and the binary `+` of `additive_expr`. -/
inductive Expr where
  | num (n : Int)
  | lit (s : String)
  | var (name : String)
  | add (a b : Expr)
deriving DecidableEq, Repr

/-! ## The node/context value model (`bluish/contexts/__init__.py`) -/

/-- The per-node mutable value state of a `ContextNode`:
`var`, `env`, `result`, `outputs`, `inputs`, `sensitive_inputs`. -/
structure NodeVals where
  var : List (String × Value)
  env : List (String × Value)
  result : Option ProcessResult
  outputs : List (String × Value)
  inputs : List (String × String)
  sensitiveInputs : List String
deriving DecidableEq, Repr

/-- A `NodeVals` with everything empty and the default `ProcessResult()`
(matching `ContextNode.__init__`). -/
def NodeVals.empty : NodeVals :=
  ⟨[], [], some ProcessResult.empty, [], [], ["password", "token"]⟩

/-- A `StepContext`'s data. -/
structure StepData where
  id : String
  vals : NodeVals
deriving DecidableEq, Repr

/-- A `JobContext`'s data (its `matrix` binding and its `steps`). -/
structure JobData where
  id : String
  vals : NodeVals
  matrix : List (String × Value)
  steps : List StepData
deriving DecidableEq, Repr

/-- A `WorkflowContext`'s data: besides node values it owns `sys_env`,
`secrets` and the `jobs` map (insertion-ordered). -/
structure WorkflowData where
  vals : NodeVals
  sysEnv : List (String × Value)
  secrets : List (String × String)
  jobs : List JobData
deriving DecidableEq, Repr

/-- A context node as a path into the workflow tree (workflow, a job of a
workflow, or a step of a job), which is how `parent` chains and the
`_workflow`/`_job`/`_step` retargeting helpers are realised. -/
inductive Ctx where
  | wfCtx (w : WorkflowData)
  | jobCtx (w : WorkflowData) (j : JobData)
  | stepCtx (w : WorkflowData) (j : JobData) (s : StepData)
deriving DecidableEq, Repr

namespace Ctx

/-- The node's own value state. -/
def vals : Ctx → NodeVals
  | wfCtx w => w.vals
  | jobCtx _ j => j.vals
  | stepCtx _ _ s => s.vals

/-- Helper `_workflow(ctx)` — total on the three node kinds. -/
def workflowOf : Ctx → WorkflowData
  | wfCtx w => w
  | jobCtx w _ => w
  | stepCtx w _ _ => w

/-- Helper `_job(ctx)`: the job itself or a step's parent; raises `ValueError`
on a workflow. -/
def jobOf : Ctx → Except EvalErr (WorkflowData × JobData)
  | wfCtx _ => .error .nodeKindError
  | jobCtx w j => .ok (w, j)
  | stepCtx w j _ => .ok (w, j)

/-- Helper `_step(ctx)`: raises unless the node is a step. -/
def stepOf : Ctx → Except EvalErr Ctx
  | stepCtx w j s => .ok (stepCtx w j s)
  | _ => .error .nodeKindError

/-- Helper `_step_or_job(ctx)`: raises on a workflow (`InputOutputNode` check). -/
def stepOrJobOf : Ctx → Except EvalErr Ctx
  | wfCtx _ => .error .nodeKindError
  | c => .ok c

/-- The `(sys_env, env)` / `var` frames of the node and its ancestors, in
walk order (self first): realises the `while current: ... current =
current.parent` loops.  Non-workflow nodes have no `sys_env` attribute. -/
def frames : Ctx → List (List (String × Value) × List (String × Value) × List (String × Value))
  | wfCtx w => [(w.sysEnv, w.vals.env, w.vals.var)]
  | jobCtx w j => [([], j.vals.env, j.vals.var), (w.sysEnv, w.vals.env, w.vals.var)]
  | stepCtx w j s =>
      [([], s.vals.env, s.vals.var), ([], j.vals.env, j.vals.var),
       (w.sysEnv, w.vals.env, w.vals.var)]

end Ctx

/-- First-match association lookup (Python `varname in d` / `d[varname]`
on dicts with unique keys). -/
def assoc {α : Type} (l : List (String × α)) (k : String) : Option α :=
  match l with
  | [] => none
  | (k', v) :: rest => if k' = k then some v else assoc rest k

/-- The `env` namespace walk: for each node up the parent chain, check
`sys_env` then `env` (`for k in ("sys_env", "env")`). -/
def envWalk (fs : List (List (String × Value) × List (String × Value) × List (String × Value)))
    (k : String) : Option Value :=
  match fs with
  | [] => none
  | (sysEnv, env, _) :: rest =>
      match assoc sysEnv k with
      | some v => some v
      | none =>
          match assoc env k with
          | some v => some v
          | none => envWalk rest k

/-- The `var` namespace walk up the parent chain. -/
def varWalk (fs : List (List (String × Value) × List (String × Value) × List (String × Value)))
    (k : String) : Option Value :=
  match fs with
  | [] => none
  | (_, _, var) :: rest =>
      match assoc var k with
      | some v => some v
      | none => varWalk rest k

/-- Python `c in s` for a single character (e.g. the dot test on names). -/
def containsChar (c : Char) (s : String) : Bool :=
  s.data.contains c

/-- Split a character list at the first occurrence of `c`. -/
def splitAtChar (c : Char) : List Char → List Char × List Char
  | [] => ([], [])
  | x :: rest =>
      if x = c then ([], rest)
      else
        let (a, b) := splitAtChar c rest
        (x :: a, b)

/-- Python `s.split(sep, maxsplit=1)` for a one-character separator
occurring in `s`: the part before the first occurrence and everything
after it. -/
def splitFirst (c : Char) (s : String) : String × String :=
  let (a, b) := splitAtChar c s.data
  (String.mk a, String.mk b)

/-- Python `name.split(".", maxsplit=1)` for a name containing a dot. -/
def splitDot1 (s : String) : String × String :=
  splitFirst '.' s

/-- Python's whitespace set for `str.strip()` (space, tab, newline,
carriage return, vertical tab, form feed). -/
def pyIsSpace (c : Char) : Bool :=
  c = ' ' || c = '\t' || c = '\n' || c = '\r' || c.toNat = 11 || c.toNat = 12

/-- Python `str.strip()`. -/
def pyStrip (s : String) : String :=
  String.mk (((s.data.dropWhile pyIsSpace).reverse.dropWhile pyIsSpace).reverse)

/-- Does `cs` start with `pat`? -/
def hasPrefixChars (pat cs : List Char) : Bool :=
  match pat, cs with
  | [], _ => true
  | _ :: _, [] => false
  | p :: ps, c :: rest => p = c && hasPrefixChars ps rest

/-- Does `cs` contain `pat` as a contiguous run? -/
def hasInfixChars (pat cs : List Char) : Bool :=
  match cs with
  | [] => pat.isEmpty
  | _ :: rest => hasPrefixChars pat cs || hasInfixChars pat rest

/-- The substring test for the fragment opener, used by `_expand_expr` and
`JobContext.exec`. -/
def containsFragOpener (s : String) : Bool :=
  hasInfixChars "$\x7b\x7b".data s.data

/-- Find the first `"}}"` in a character list, splitting into the content
before it and the remainder after it (the backtracking search done by the
non-greedy `(.+?)}}` of `EXPRESSION_REGEX`). -/
def splitClose : List Char → Option (List Char × List Char)
  | '}' :: '}' :: rest => some ([], rest)
  | c :: rest =>
      match splitClose rest with
      | some (a, b) => some (c :: a, b)
      | none => none
  | [] => none

/-- Find the first match of `EXPRESSION_REGEX = r"\${{(.+?)}}"` (DOTALL):
returns `(literal prefix, fragment body, remainder)`.  The body is the
shortest non-empty run of characters followed by `"}}"`; an opener with no
such close is treated as literal text and scanning continues. -/
def findFrag : List Char → Option (List Char × List Char × List Char)
  | [] => none
  | c :: rest =>
      if c = '$' then
        match rest with
        | '{' :: '{' :: d :: rest2 =>
            match splitClose (d :: rest2) with
            | some (inner, after) => some ([], inner, after)
            | none =>
                match findFrag rest with
                | some (b, i, a) => some (c :: b, i, a)
                | none => none
        | _ =>
            match findFrag rest with
            | some (b, i, a) => some (c :: b, i, a)
            | none => none
      else
        match findFrag rest with
        | some (b, i, a) => some (c :: b, i, a)
        | none => none

/-- Character class of the lark `VARIABLE` terminal's first character:
`[a-zA-Z_.]`. -/
def isVarStart (c : Char) : Bool :=
  c.isAlpha || c = '_' || c = '.'

/-- Character class of the remaining `VARIABLE` characters:
`[a-zA-Z0-9_.]`. -/
def isVarChar (c : Char) : Bool :=
  c.isAlphanum || c = '_' || c = '.'

/-- Recogniser for the lark `VARIABLE` terminal. -/
def isVarToken (s : String) : Bool :=
  match s.data with
  | [] => false
  | c :: rest => isVarStart c && rest.all isVarChar

/-- Recogniser for an integer `NUMBER` token (`[0-9]+`; a mantissa
separator would make it a float, which is outside the embedding). -/
def isIntToken (s : String) : Bool :=
  !s.data.isEmpty && s.data.all Char.isDigit

/-- Decimal value of a digit string (Python `int(...)`). -/
def digitsToInt (cs : List Char) : Int :=
  Int.ofNat (cs.foldl (fun n c => n * 10 + (c.toNat - 48)) 0)

/-- Parse a fragment body with the lark grammar, for the productions in
the embedded `Expr` subset: surrounding whitespace is ignored (`%ignore
WS`) and the body is a single `VARIABLE` or integer `NUMBER` primary.
Bodies outside the subset evaluate to `larkParseError` (lark raising on
or the embedding not covering them); no theorem below evaluates such a
body. -/
def parseFragment (s : String) : Option Expr :=
  let t := pyStrip s
  if isIntToken t then some (.num (digitsToInt t.data))
  else if isVarToken t then some (.var t)
  else none

/-! ## The mutually recursive evaluation pipeline

`ExprTransformer` evaluation calls `ContextNode.get_value`, which calls
`_try_get_value`, whose `prepare_value` re-expands string values through
`_expand_expr`, which runs the fragment parser, which evaluates
expressions — a genuine cycle in the Python source (it is what makes a
self-referential variable exhaust the interpreter stack).  Each function
spends one unit of fuel per call; `EvalErr.outOfFuel` is Python's
`RecursionError`. -/

mutual

/-- Bottom-up evaluation of an expression AST, mirroring the
`ExprTransformer` methods (`number`, `str`, `var`, `add`). -/
def evalExpr : Nat → Ctx → Expr → Except EvalErr Value
  | 0, _, _ => .error .outOfFuel
  | fuel + 1, ctx, e =>
      match e with
      | .num n => .ok (vInt n)
      | .lit s => .ok (vStr s)
      | .var name =>
          if name = "true" then .ok (vBool true)
          else if name = "false" then .ok (vBool false)
          else getValue fuel ctx name none
      | .add a b => do
          let va ← evalExpr fuel ctx a
          let vb ← evalExpr fuel ctx b
          addOp va vb
termination_by structural fuel _ _ => fuel

/-- Embedding of `ContextNode.get_value(name, default, raw=False)`: raises
`ValueError("Variable ... not found")` when the lookup yields `None` and
no default was supplied. -/
def getValue : Nat → Ctx → String → Option Value → Except EvalErr Value
  | 0, _, _, _ => .error .outOfFuel
  | fuel + 1, ctx, name, default => do
      let v ← tryGetValue fuel ctx name false
      match v, default with
      | none, none => .error (.varNotFound name)
      | none, some d => .ok d
      | some v, _ => .ok v
termination_by structural fuel _ _ _ => fuel

/-- Embedding of `bluish/contexts/__init__.py` `_try_get_value(ctx, name, raw)`. -/
def tryGetValue : Nat → Ctx → String → Bool → Except EvalErr (Option Value)
  | 0, _, _, _ => .error .outOfFuel
  | fuel + 1, ctx, name, raw =>
      if !containsChar '.' name then do
        let memberResult ← tryGetValue fuel ctx ("." ++ name) raw
        let varResult ← tryGetValue fuel ctx ("var." ++ name) raw
        match varResult, memberResult with
        | some _, some _ => .error (.ambiguousRef name)
        | some v, none => .ok (some v)
        | none, some v => .ok (some v)
        | none, none => .ok none
      else
        let (root, varname) := splitDot1 name
        if root = "" then
          if varname = "stdout" then
            prepareValue fuel ctx raw
              (some (vStr (match ctx.vals.result with
                           | none => ""
                           | some r => pyStrip r.stdout)))
          else if varname = "stderr" then
            prepareValue fuel ctx raw
              (some (vStr (match ctx.vals.result with
                           | none => ""
                           | some r => pyStrip r.stderr)))
          else if varname = "returncode" then
            prepareValue fuel ctx raw
              (some (vInt (match ctx.vals.result with
                           | none => 0
                           | some r => r.returncode)))
          else .ok none
        else if root = "env" then
          prepareValue fuel ctx raw (envWalk ctx.frames varname)
        else if root = "var" then
          prepareValue fuel ctx raw (varWalk ctx.frames varname)
        else if root = "workflow" then
          tryGetValue fuel (.wfCtx ctx.workflowOf) varname raw
        else if root = "secrets" then
          match assoc ctx.workflowOf.secrets varname with
          | some v => prepareValue fuel ctx raw (some (vSafe v "********"))
          | none => .ok none
        else if root = "jobs" then
          if !containsChar '.' varname then .error .unpackError
          else
            let (jobId, rest) := splitDot1 varname
            match (ctx.workflowOf.jobs.find? (fun j => j.id = jobId)) with
            | none => .error (.jobNotFound jobId)
            | some j => tryGetValue fuel (.jobCtx ctx.workflowOf j) rest raw
        else if root = "job" then do
          let (w, j) ← ctx.jobOf
          tryGetValue fuel (.jobCtx w j) varname raw
        else if root = "steps" then do
          let (w, j) ← ctx.jobOf
          if !containsChar '.' varname then .error .unpackError
          else
            let (stepId, rest) := splitDot1 varname
            match (j.steps.find? (fun s => s.id = stepId)) with
            | none => .error (.stepNotFound stepId)
            | some s => tryGetValue fuel (.stepCtx w j s) rest raw
        else if root = "matrix" then do
          let (_, j) ← ctx.jobOf
          prepareValue fuel ctx raw (assoc j.matrix varname)
        else if root = "step" then do
          let s ← ctx.stepOf
          tryGetValue fuel s varname raw
        else if root = "inputs" then do
          let node ← ctx.stepOrJobOf
          match assoc node.vals.inputs varname with
          | none => .ok none
          | some v =>
              if node.vals.sensitiveInputs.contains varname then
                prepareValue fuel ctx raw (some (vSafe v "********"))
              else
                prepareValue fuel ctx raw (some (vStr v))
        else if root = "outputs" then do
          let node ← ctx.stepOrJobOf
          prepareValue fuel ctx raw (assoc node.vals.outputs varname)
        else .ok none
termination_by structural fuel _ _ _ => fuel

/-- The local helper `prepare_value` inside `_try_get_value`: `None`
passes through; with `raw` set or a non-string value, the value is
returned unchanged; a string value is re-expanded via `_expand_expr`. -/
def prepareValue : Nat → Ctx → Bool → Option Value → Except EvalErr (Option Value)
  | 0, _, _, _ => .error .outOfFuel
  | fuel + 1, ctx, raw, v? =>
      match v? with
      | none => .ok none
      | some v =>
          if raw || !v.isStr then .ok (some v)
          else do
            let r ← expandValue fuel ctx v
            .ok (some r)
termination_by structural fuel _ _ _ => fuel

/-- Embedding of `bluish/contexts/__init__.py` `_expand_expr` on a string value: a
string without `"${{"` is returned unchanged (keeping `SafeString`-ness);
otherwise the expression parser runs on it.  The `_depth` parameter of
the source is threaded but never checked there, so no depth bound appears
here. -/
def expandValue : Nat → Ctx → Value → Except EvalErr Value
  | 0, _, _ => .error .outOfFuel
  | fuel + 1, ctx, v =>
      if !containsFragOpener v.pyStr then .ok v
      else parseString fuel ctx v.pyStr
termination_by structural fuel _ _ => fuel

/-- Embedding of `create_parser(ctx).parse(value)`: scan fragments and
`concat` the literal chunks and fragment results in order, starting from
`result = None`.  Chunks are Python string slices, hence plain `str`
(a `SafeString` input loses its redacted value here). -/
def parseString : Nat → Ctx → String → Except EvalErr Value
  | 0, _, _ => .error .outOfFuel
  | fuel + 1, ctx, s => parseChunks fuel ctx s.data vNone
termination_by structural fuel _ _ => fuel

/-- The fragment loop of `parse`: each regex match contributes its
preceding literal chunk (if non-empty) and its evaluated result; the
trailing literal chunk (if non-empty) is appended at the end. -/
def parseChunks : Nat → Ctx → List Char → Value → Except EvalErr Value
  | 0, _, _, _ => .error .outOfFuel
  | fuel + 1, ctx, cs, acc =>
      match findFrag cs with
      | none =>
          .ok (if cs.isEmpty then acc else concat acc (vStr (String.mk cs)))
      | some (before, inner, after) => do
          let acc := if before.isEmpty then acc else concat acc (vStr (String.mk before))
          let pr ← evalFragment fuel ctx (String.mk inner)
          parseChunks fuel ctx after (concat acc pr)
termination_by structural fuel _ _ _ => fuel

/-- One fragment body: `_parser.parse(m.group(1))` followed by `transformer.transform(ast)`
for one fragment body. -/
def evalFragment : Nat → Ctx → String → Except EvalErr Value
  | 0, _, _ => .error .outOfFuel
  | fuel + 1, ctx, s =>
      match parseFragment s with
      | none => .error (.larkParseError s)
      | some e => evalExpr fuel ctx e
termination_by structural fuel _ _ => fuel

end

/-! ## Matrix expansion (`bluish/nodes/__init__.py` `_generate_matrices`) -/

/-- Python `itertools.product(*lists)`: the cartesian product in standard
nested-loop order — the first list is the outermost loop, the last list
varies fastest. -/
def itertoolsProduct {α : Type} : List (List α) → List (List α)
  | [] => [[]]
  | xs :: rest => xs.flatMap (fun x => (itertoolsProduct rest).map (x :: ·))

/-- Embedding of `_generate_matrices(ctx)`: with no `matrix` attribute a single empty
combination is yielded; otherwise one combination per element of
`product(*matrix.values())`, each zipped with the axis keys in
declaration order.  (`expand_expr` applied to each value is the identity
for values without `${{ }}` fragments, which is what every matrix in the
claims uses.) -/
def generateMatrices (axes : List (String × List String)) : List (List (String × String)) :=
  if axes.isEmpty then [[]]
  else (itertoolsProduct (axes.map (·.2))).map (fun combo => (axes.map (·.1)).zip combo)

/-! ## The dependency-walking dispatcher
(`bluish/contexts/workflow.py` `WorkflowContext.__dispatch_job`)

Job-level execution (`JobContext.dispatch`) is abstracted to its
observable effect on the walk: the condition gate either skips the job
(status `SKIPPED`, `None` returned) or its steps run and produce the
job's configured outcome (status `FINISHED`, result recorded).  The
state's `trace` lists each job execution (id and matrix binding) in
order — it is the instrumentation used to state "the job's steps do not
re-execute". -/

/-- A job as the dispatcher sees it: id, `depends_on`, `matrix` attrs,
the value of its condition gate, and the `ProcessResult` its steps
produce when run. -/
structure DJob where
  id : String
  dependsOn : List String
  matrix : List (String × List String)
  gate : Bool
  outcome : ProcessResult
deriving DecidableEq, Repr

/-- The workflow's `jobs` map (insertion-ordered). -/
structure DWorkflow where
  jobs : List DJob
deriving DecidableEq, Repr

/-- A job's mutable dispatch state (`status`, `result`). -/
structure JobState where
  status : ExecutionStatus
  result : ProcessResult
deriving DecidableEq, Repr

/-- Dispatch state: per-job states plus the execution trace. -/
structure DispatchState where
  jobStates : List (String × JobState)
  trace : List (String × List (String × String))
deriving DecidableEq, Repr

/-- The initial dispatch state (every job `PENDING` with the empty
result, nothing executed). -/
def DispatchState.init : DispatchState := ⟨[], []⟩

/-- A job's current state, defaulting to the freshly-constructed one. -/
def DispatchState.jobState (st : DispatchState) (id : String) : JobState :=
  (assoc st.jobStates id).getD ⟨.PENDING, ProcessResult.empty⟩

/-- Replace (or add) a job's state. -/
def DispatchState.setJob (st : DispatchState) (id : String) (js : JobState) : DispatchState :=
  { st with jobStates :=
      if (assoc st.jobStates id).isSome then
        st.jobStates.map (fun kv => if kv.1 = id then (id, js) else kv)
      else st.jobStates ++ [(id, js)] }

/-- Errors raised during the dependency walk. -/
inductive DispatchErr where
  | circularDependency
  | invalidDependency (id : String)
  | outOfFuel
deriving DecidableEq, Repr

/-- Embedding of `JobContext.dispatch` abstracted for the walk: status goes `RUNNING`,
the condition gate either leaves the job `SKIPPED` returning `None`, or
the steps run (appending to the trace), the result is recorded and the
status ends `FINISHED`. -/
def jobRun (job : DJob) (binding : List (String × String)) (st : DispatchState) :
    Option ProcessResult × DispatchState :=
  if !job.gate then
    (none, st.setJob job.id { st.jobState job.id with status := .SKIPPED })
  else
    (some job.outcome,
     { st.setJob job.id ⟨.FINISHED, job.outcome⟩ with
         trace := st.trace ++ [(job.id, binding)] })

mutual

/-- Embedding of `WorkflowContext.__dispatch_job(job, no_deps, visited_jobs)`.  The
`visited_jobs` set is passed by reference and mutated (`add`) along the
whole walk, so it is threaded through and returned.  The check order is
the source's: the visited check comes before the `FINISHED`
short-circuit. -/
def dispatchJobAux (fuel : Nat) (wf : DWorkflow) (st : DispatchState)
    (visited : List String) (jobId : String) (noDeps : Bool) :
    Except DispatchErr (Option ProcessResult) × DispatchState × List String :=
  match fuel with
  | 0 => (.error .outOfFuel, st, visited)
  | fuel + 1 =>
      match wf.jobs.find? (fun j => j.id = jobId) with
      | none => (.error (.invalidDependency jobId), st, visited)
      | some job =>
          if visited.contains job.id then
            (.error .circularDependency, st, visited)
          else if (st.jobState job.id).status = .FINISHED then
            (.ok (some (st.jobState job.id).result), st, visited)
          else
            let visited := visited ++ [job.id]
            match (if noDeps then (.ok none, st, visited)
                   else dispatchDeps fuel wf st visited job.dependsOn) with
            | (.error e, st, visited) => (.error e, st, visited)
            | (.ok (some failedResult), st, visited) => (.ok (some failedResult), st, visited)
            | (.ok none, st, visited) =>
                if !job.matrix.isEmpty then
                  matrixLoop fuel job
                    ((itertoolsProduct (job.matrix.map (·.2))).map
                      (fun combo => (job.matrix.map (·.1)).zip combo))
                    st visited
                else
                  let (r, st) := jobRun job [] st
                  (.ok r, st, visited)
termination_by structural fuel

/-- The `for dependency_id in job.attrs.depends_on` loop: each dependency
is dispatched recursively; a failed dependency's result aborts the chain
(`.ok (some result)` here means "return result" in the source). -/
def dispatchDeps (fuel : Nat) (wf : DWorkflow) (st : DispatchState)
    (visited : List String) (deps : List String) :
    Except DispatchErr (Option ProcessResult) × DispatchState × List String :=
  match fuel with
  | 0 => (.error .outOfFuel, st, visited)
  | fuel + 1 =>
      match deps with
      | [] => (.ok none, st, visited)
      | depId :: rest =>
          match wf.jobs.find? (fun j => j.id = depId) with
          | none => (.error (.invalidDependency depId), st, visited)
          | some _ =>
              match dispatchJobAux fuel wf st visited depId false with
              | (.error e, st, visited) => (.error e, st, visited)
              | (.ok r, st, visited) =>
                  match r with
                  | some result =>
                      if result.failed then (.ok (some result), st, visited)
                      else dispatchDeps fuel wf st visited rest
                  | none => dispatchDeps fuel wf st visited rest
termination_by structural fuel

/-- The `for matrix_tuple in product(*job.attrs.matrix.values())` loop:
the job is dispatched once per combination; a failed combination's result
is returned immediately, otherwise an empty `ProcessResult()` ends the
loop. -/
def matrixLoop (fuel : Nat) (job : DJob)
    (combos : List (List (String × String))) (st : DispatchState)
    (visited : List String) :
    Except DispatchErr (Option ProcessResult) × DispatchState × List String :=
  match fuel with
  | 0 => (.error .outOfFuel, st, visited)
  | fuel + 1 =>
      match combos with
      | [] => (.ok (some ProcessResult.empty), st, visited)
      | binding :: rest =>
          let (r, st) := jobRun job binding st
          match r with
          | some result =>
              if result.failed then (.ok (some result), st, visited)
              else matrixLoop fuel job rest st visited
          | none => matrixLoop fuel job rest st visited
termination_by structural fuel

end

/-- Embedding of `WorkflowContext.dispatch_job(job, no_deps)` — the public entry that
starts a walk with a fresh empty `visited` set. -/
def dispatchJob (fuel : Nat) (wf : DWorkflow) (st : DispatchState) (jobId : String)
    (noDeps : Bool) : Except DispatchErr (Option ProcessResult) × DispatchState :=
  let (r, st, _) := dispatchJobAux fuel wf st [] jobId noDeps
  (r, st)

/-! ## The dispatch status machine
(`bluish/contexts/step.py`, `bluish/contexts/job.py`,
`bluish/contexts/workflow.py` `dispatch` methods)

Exception-capable collaborators (condition gates, action execution, host
preparation) are inputs; the functions compute the node's final `status`
together with the returned-or-raised result, following the source's
`try`/`finally` structure exactly. -/

/-- An exception raised by a collaborator during dispatch. -/
inductive DispatchExc where
  | hostPrepError
  | gateError
  | actionError
deriving DecidableEq, Repr

/-- A step as `StepContext.dispatch` sees it: its condition gate
(`can_dispatch`, which may raise while evaluating the expression) and its
action execution (`klass().execute(self)`, which may raise). -/
structure StepSpec where
  gate : Except DispatchExc Bool
  action : Except DispatchExc ProcessResult
  continueOnError : Bool
deriving DecidableEq, Repr

/-- Embedding of `StepContext.dispatch`: the gate is checked while the status is still
`PENDING`; a false gate sets `SKIPPED` and returns `None`; otherwise the
status goes `RUNNING` and the `finally` sets `FINISHED` whether the
action returns or raises. -/
def stepDispatch (s : StepSpec) : ExecutionStatus × Except DispatchExc (Option ProcessResult) :=
  match s.gate with
  | .error e => (.PENDING, .error e)
  | .ok false => (.SKIPPED, .ok none)
  | .ok true =>
      match s.action with
      | .error e => (.FINISHED, .error e)
      | .ok r => (.FINISHED, .ok (some r))

/-- A job as `JobContext.dispatch` sees it: whether it declares
`runs_on` (and what preparing that host does), its condition gate, and
its steps. -/
structure JobSpec where
  runsOn : Bool
  prepHost : Except DispatchExc Unit
  gate : Except DispatchExc Bool
  steps : List StepSpec
deriving DecidableEq, Repr

/-- The `for step in self.steps` loop of `JobContext.dispatch`: skipped
steps leave `self.result` untouched; a failed step stops the job unless
its `continue_on_error` is set; a step raising propagates. -/
def jobStepsLoop (steps : List StepSpec) (result : ProcessResult) :
    Except DispatchExc ProcessResult :=
  match steps with
  | [] => .ok result
  | s :: rest =>
      match stepDispatch s with
      | (_, .error e) => .error e
      | (_, .ok none) => jobStepsLoop rest result
      | (_, .ok (some r)) =>
          if r.failed && !s.continueOnError then .ok r
          else jobStepsLoop rest r

/-- Embedding of `JobContext.dispatch`: status goes `RUNNING`, then — still outside
the `try` block — the `runs_on` host is prepared (an exception here
propagates with the status left `RUNNING`); inside the `try`, a false
gate sets `SKIPPED` and returns `None`; the `finally` turns a status
still `RUNNING` into `FINISHED`, also when the gate or a step raised. -/
def jobDispatch (j : JobSpec) : ExecutionStatus × Except DispatchExc (Option ProcessResult) :=
  match (if j.runsOn then j.prepHost else .ok ()) with
  | .error e => (.RUNNING, .error e)
  | .ok () =>
      match j.gate with
      | .error e => (.FINISHED, .error e)
      | .ok false => (.SKIPPED, .ok none)
      | .ok true =>
          match jobStepsLoop j.steps ProcessResult.empty with
          | .error e => (.FINISHED, .error e)
          | .ok r => (.FINISHED, .ok (some r))

/-- A workflow as `WorkflowContext.dispatch` sees it: its optional
`runs_on` host preparation and, for each job in declaration order, what
`dispatch_job` returns (or raises) for it together with the job's
`continue_on_error`. -/
structure WfSpec where
  runsOn : Bool
  prepHost : Except DispatchExc Unit
  jobs : List (Except DispatchExc (Option ProcessResult) × Bool)
deriving DecidableEq, Repr

/-- The `for job in self.jobs.values()` loop of
`WorkflowContext.dispatch`. -/
def wfJobsLoop (jobs : List (Except DispatchExc (Option ProcessResult) × Bool))
    (result : ProcessResult) : Except DispatchExc ProcessResult :=
  match jobs with
  | [] => .ok result
  | (r, continueOnError) :: rest =>
      match r with
      | .error e => .error e
      | .ok none => wfJobsLoop rest result
      | .ok (some res) =>
          if res.failed && !continueOnError then .ok res
          else wfJobsLoop rest res

/-- Embedding of `WorkflowContext.dispatch`: status goes `RUNNING`, the `runs_on` host
is prepared outside the `try` (an exception leaves the status `RUNNING`),
and the `finally` turns `RUNNING` into `FINISHED` on every exit from the
job loop, including a propagating exception. -/
def workflowDispatch (w : WfSpec) : ExecutionStatus × Except DispatchExc ProcessResult :=
  match (if w.runsOn then w.prepHost else .ok ()) with
  | .error e => (.RUNNING, .error e)
  | .ok () =>
      match wfJobsLoop w.jobs ProcessResult.empty with
      | .error e => (.FINISHED, .error e)
      | .ok r => (.FINISHED, .ok r)

/-! ## `JobContext.exec` (`bluish/contexts/job.py`) -/

/-- Python `d[k] = v` on an insertion-ordered dict. -/
def setAssoc (l : List (String × String)) (k v : String) : List (String × String) :=
  if (assoc l k).isSome then l.map (fun kv => if kv.1 = k then (k, v) else kv)
  else l ++ [(k, v)]

/-- Split a character list at every occurrence of `c`. -/
def splitCharAll (c : Char) : List Char → List (List Char)
  | [] => [[]]
  | x :: rest =>
      if x = c then [] :: splitCharAll c rest
      else
        match splitCharAll c rest with
        | [] => [[x]]
        | a :: as => (x :: a) :: as

/-- Python `s.splitlines()` for `\n`-separated text: split at every
newline, discarding only a trailing empty piece. -/
def pySplitlines (s : String) : List String :=
  let parts := (splitCharAll '\n' s.data).map String.mk
  if parts.getLast? = some "" then parts.dropLast else parts

/-- Python `sep.join(parts)`. -/
def joinSep (sep : String) : List String → String
  | [] => ""
  | [x] => x
  | x :: rest => x ++ sep ++ joinSep sep rest

/-- Embedding of `bluish/process.py` `SHELLS`. -/
def SHELLS : List (String × String) :=
  [("bash", "bash -euo pipefail"), ("sh", "sh -eu"), ("python", "python3 -qsIEB")]

/-- Embedding of `bluish/process.py` `DEFAULT_SHELL`. -/
def defaultShell : String := "sh"

/-- The mutable state `exec` touches: the target context's `outputs` map,
plus the trace of commands handed to `bluish.process.run` (the
instrumentation for "before any process is spawned"). -/
structure ExecState where
  outputs : List (String × String)
  spawned : List String
deriving DecidableEq, Repr

/-- The `for line in output_result.stdout.splitlines()` loop of `exec`:
each line splits at its first `=` into the context's `outputs`; a line
without `=` raises `ValueError` (unpacking). -/
def captureLoop (lines : List String) (runResult : ProcessResult) (st : ExecState) :
    Except String ProcessResult × ExecState :=
  match lines with
  | [] => (.ok runResult, st)
  | line :: rest =>
      if containsChar '=' line then
        let (k, v) := splitFirst '=' line
        captureLoop rest runResult { st with outputs := setAssoc st.outputs k v }
      else
        (.error "not enough values to unpack", st)

/-- Embedding of `JobContext.exec(command, context, env, shell, stream_output)`.
Parameters model the collaborators: `runner` is `bluish.process.run`
against the job's host, `b64encode` is `base64.b64encode(...).decode()`
(an opaque encoder), `captureFilename` is the `uuid4`-derived temp path,
and the remaining arguments are the relevant `get_inherited_attr`
results.  `expanded` is `context.expand_expr(command)` (computed by the
expression engine above); the stream handlers only affect logging and
are not modelled. -/
def jobExec (runner : String → ProcessResult) (b64encode : String → String)
    (captureFilename : String) (env : List (String × String))
    (shellParam : Option String) (inheritedShell : String)
    (workingDir : Option String) (expanded : String) (st : ExecState) :
    Except String ProcessResult × ExecState :=
  let command := pyStrip expanded
  if containsFragOpener command then
    (.error "Command contains unexpanded variables", st)
  else
    let touchCmd := "touch " ++ captureFilename
    let touchResult := runner touchCmd
    let st := { st with spawned := st.spawned ++ [touchCmd] }
    if touchResult.failed then (.ok touchResult, st)
    else
      let env := setAssoc env "BLUISH_OUTPUT" captureFilename
      let envStr := pyStrip (joinSep "; "
        (env.map (fun kv => kv.1 ++ "=\"" ++ kv.2 ++ "\"")))
      let command := if envStr ≠ "" then envStr ++ "; " ++ command else command
      let shell := shellParam.getD inheritedShell
      let interpreter := (assoc SHELLS shell).getD shell
      let command :=
        if interpreter ≠ "" then
          "echo " ++ b64encode command ++ " | base64 -di - | " ++ interpreter
        else command
      let (proceed, command, st) :=
        match workingDir with
        | none => (Except.ok (), command, st)
        | some wd =>
            let mkdirCmd := "mkdir -p " ++ wd
            let mkdirResult := runner mkdirCmd
            let st := { st with spawned := st.spawned ++ [mkdirCmd] }
            if mkdirResult.failed then (Except.error mkdirResult, command, st)
            else (Except.ok (), "cd \"" ++ wd ++ "\" && " ++ command, st)
      match proceed with
      | .error r => (.ok r, st)
      | .ok () =>
          let runResult := runner command
          let st := { st with spawned := st.spawned ++ [command] }
          let catCmd := "cat " ++ captureFilename
          let outputResult := runner catCmd
          let st := { st with spawned := st.spawned ++ [catCmd] }
          if outputResult.failed then (.ok outputResult, st)
          else
            captureLoop (pySplitlines outputResult.stdout) runResult st

/-! ## Concrete fixtures used by the theorems -/

/-- A bare workflow context with no variables, secrets or jobs. -/
def emptyWorkflowCtx : Ctx :=
  .wfCtx ⟨NodeVals.empty, [], [], []⟩

/-- A workflow context whose only secret is `token` with value `s`. -/
def secretTokenCtx (s : String) : Ctx :=
  .wfCtx ⟨NodeVals.empty, [], [("token", s)], []⟩

/-- A workflow context with `var.stdout` set — a bare `stdout` reference
is then resolvable both as `var.stdout` and as the `.stdout` member. -/
def varStdoutCtx : Ctx :=
  .wfCtx ⟨{ NodeVals.empty with var := [("stdout", .vStr "v")] }, [], [], []⟩

/-- A workflow context with the self-referential `var x = "${{ x }}"`. -/
def selfRefCtx : Ctx :=
  .wfCtx ⟨{ NodeVals.empty with var := [("x", .vStr "${{ x }}")] }, [], [], []⟩

/-- A workflow context with a six-deep expansion chain
`x1 → ${{ x2 }} → … → x6 → "done"`. -/
def chainSixCtx : Ctx :=
  .wfCtx ⟨{ NodeVals.empty with var :=
    [("x1", .vStr "${{ x2 }}"), ("x2", .vStr "${{ x3 }}"), ("x3", .vStr "${{ x4 }}"),
     ("x4", .vStr "${{ x5 }}"), ("x5", .vStr "${{ x6 }}"), ("x6", .vStr "done")] },
    [], [], []⟩

/-- A successful one-line result, standing in for a job's step output. -/
def okResult : ProcessResult := ⟨"out", "", 0⟩

/-- The diamond workflow: `a` depends on `b` and `c`, and both `b` and
`c` depend on `d`; no cycles. -/
def diamondWorkflow : DWorkflow :=
  ⟨[⟨"a", ["b", "c"], [], true, okResult⟩,
    ⟨"b", ["d"], [], true, okResult⟩,
    ⟨"c", ["d"], [], true, okResult⟩,
    ⟨"d", [], [], true, okResult⟩]⟩

/-- The two-job cyclic workflow `job1 → job2 → job1`; the jobs'
gates, matrices and step outcomes are arbitrary. -/
def twoCycleWorkflow (m1 m2 : List (String × List String)) (g1 g2 : Bool)
    (r1 r2 : ProcessResult) : DWorkflow :=
  ⟨[⟨"job1", ["job2"], m1, g1, r1⟩, ⟨"job2", ["job1"], m2, g2, r2⟩]⟩

/-! ## Supporting lemmas -/

/-- Lemma: `itertools.product` enumerates exactly the tuples that pick one
element from each input list, in order. -/
theorem mem_itertoolsProduct {α : Type} (ls : List (List α)) (cs : List α) :
    cs ∈ itertoolsProduct ls ↔ List.Forall₂ (fun c l => c ∈ l) cs ls := by
  induction ls generalizing cs with
  | nil =>
      simp only [itertoolsProduct, List.mem_singleton]
      constructor
      · rintro rfl; exact List.Forall₂.nil
      · rintro h; cases h; rfl
  | cons xs rest ih =>
      simp only [itertoolsProduct, List.mem_flatMap, List.mem_map]
      constructor
      · rintro ⟨x, hx, cs', hcs', rfl⟩
        exact List.Forall₂.cons hx ((ih cs').mp hcs')
      · intro h
        cases h with
        | cons hx hrest =>
            exact ⟨_, hx, _, (ih _).mpr hrest, rfl⟩

/-- Lemma: `itertools.product` has exactly `∏ lengths` elements. -/
theorem length_itertoolsProduct {α : Type} (ls : List (List α)) :
    (itertoolsProduct ls).length = (ls.map List.length).prod := by
  induction ls with
  | nil => simp [itertoolsProduct]
  | cons xs rest ih =>
      simp only [itertoolsProduct, List.length_flatMap, List.length_map,
        List.map_map, Function.comp_def, ih, List.prod_cons]
      rw [List.map_const', List.sum_replicate, smul_eq_mul, Nat.mul_comm,
        List.map_cons, List.prod_cons, Nat.mul_comm]

/-! ## Claim theorems -/

/-- C4: matrix expansion produces exactly the cartesian product of the
axes' value lists (membership characterisation and count), enumerated in
nested-loop order with the last-declared axis varying fastest; for
`{os: [a, b], ver: [1, 2]}` it yields exactly the four combinations
`(a,1), (a,2), (b,1), (b,2)` in that order. -/
theorem matrix_expansion_cartesian_product :
    generateMatrices [("os", ["a", "b"]), ("ver", ["1", "2"])] =
      [[("os", "a"), ("ver", "1")], [("os", "a"), ("ver", "2")],
       [("os", "b"), ("ver", "1")], [("os", "b"), ("ver", "2")]] ∧
    (∀ (axes : List (String × List String)) (combo : List String),
      combo ∈ itertoolsProduct (axes.map (·.2)) ↔
        List.Forall₂ (fun c l => c ∈ l) combo (axes.map (·.2))) ∧
    (∀ axes : List (String × List String),
      (generateMatrices axes).length = (axes.map (fun a => a.2.length)).prod) := by
  refine ⟨by decide, fun axes combo => mem_itertoolsProduct _ _, fun axes => ?_⟩
  unfold generateMatrices
  split
  · next h =>
      rw [List.isEmpty_iff.mp h]
      rfl
  · rw [List.length_map, length_itertoolsProduct, List.map_map]
    rfl

/-- Witness for C4: the theorem's membership characterisation applied at
the example axes shows `[a, 1]` is among the generated combinations. -/
theorem matrix_expansion_cartesian_product_witness :
    ["a", "1"] ∈ itertoolsProduct
      ([("os", ["a", "b"]), ("ver", ["1", "2"])].map (·.2)) :=
  (matrix_expansion_cartesian_product.2.1
    [("os", ["a", "b"]), ("ver", ["1", "2"])] ["a", "1"]).mpr
    (List.Forall₂.cons (by simp) (List.Forall₂.cons (by simp) List.Forall₂.nil))

/-- C6 counterexample: `1 + "x"` — a numeric operand mixed with a
non-numeric one — raises `TypeError` (Python `int + str`), it does not
produce the string concatenation the claim asserts. -/
theorem add_mixed_operands_counterexample :
    evalExpr 10 emptyWorkflowCtx (.add (.num 1) (.lit "x")) = .error .typeError ∧
    evalExpr 10 emptyWorkflowCtx (.add (.num 1) (.lit "x")) ≠
      .ok (concat (.vInt 1) (.vStr "x")) := by
  constructor
  · decide
  · decide

/-- C6 amended: `+` on two numbers (Python `bool` included) is their
arithmetic sum; `+` where *neither* operand is numeric is string
concatenation with redaction propagated; `+` with exactly one numeric
operand raises `TypeError`.  Expression evaluation of `a + b` applies
this operator to the operands' values. -/
theorem add_semantics_amended :
    (∀ a b : Value, a.isNumeric = true → b.isNumeric = true →
       addOp a b = .ok (.vInt (a.toInt + b.toInt))) ∧
    (∀ a b : Value, a.isNumeric = false → b.isNumeric = false →
       addOp a b = .ok (concat a b)) ∧
    (∀ a b : Value, a.isNumeric ≠ b.isNumeric → addOp a b = .error .typeError) ∧
    (∀ (n : Nat) (ctx : Ctx) (ea eb : Expr) (va vb : Value),
       evalExpr n ctx ea = .ok va → evalExpr n ctx eb = .ok vb →
       evalExpr (n + 1) ctx (.add ea eb) = addOp va vb) := by
  refine ⟨?_, ?_, ?_, ?_⟩
  · intro a b ha hb
    simp [addOp, pyAdd, ha, hb]
  · intro a b ha hb
    simp [addOp, ha, hb]
  · intro a b hne
    rcases ha : a.isNumeric <;> rcases hb : b.isNumeric <;>
      simp_all [addOp, pyAdd]
  · intro n ctx ea eb va vb hea heb
    simp only [evalExpr, hea, heb]
    rfl

/-- Witness for C6's amended theorem: `1 + 2` evaluates to `3`. -/
theorem add_semantics_amended_witness :
    addOp (.vInt 1) (.vInt 2) = .ok (.vInt 3) := by
  have h := add_semantics_amended.1 (.vInt 1) (.vInt 2) (by decide) (by decide)
  simpa using h

/-- C9 counterexample: a job whose `runs_on` host preparation raises is
left with status `RUNNING` while the exception propagates out of
`dispatch` — `prepare_host` runs after `status = RUNNING` but before the
`try`/`finally` that would mark the job `FINISHED`. -/
theorem job_host_prep_failure_leaves_running :
    jobDispatch ⟨true, .error .hostPrepError, .ok true, []⟩ =
      (.RUNNING, .error .hostPrepError) := by
  decide

/-- C9 amended: for every termination inside the dispatch body the
status is terminal — a step is `SKIPPED` exactly when its gate evaluated
false and `FINISHED` whenever the gate passed (even if the action
raised), and is never left `RUNNING` (a raising gate leaves it
`PENDING`); a job or workflow whose `runs_on` host preparation succeeds
(or that declares none) likewise ends `SKIPPED`/`FINISHED` — only a host
preparation exception can leave a node `RUNNING`. -/
theorem dispatch_status_terminal_amended :
    (∀ s : StepSpec,
       (s.gate = .ok false → stepDispatch s = (.SKIPPED, .ok none)) ∧
       (s.gate = .ok true → (stepDispatch s).1 = .FINISHED) ∧
       (stepDispatch s).1 ≠ .RUNNING) ∧
    (∀ j : JobSpec, (j.runsOn = true → j.prepHost = .ok ()) →
       ((jobDispatch j).1 = .SKIPPED ∨ (jobDispatch j).1 = .FINISHED) ∧
       ((jobDispatch j).1 = .SKIPPED ↔ j.gate = .ok false)) ∧
    (∀ w : WfSpec, (w.runsOn = true → w.prepHost = .ok ()) →
       (workflowDispatch w).1 = .FINISHED) := by
  refine ⟨?_, ?_, ?_⟩
  · intro s
    refine ⟨fun h => ?_, fun h => ?_, ?_⟩
    · simp [stepDispatch, h]
    · rcases ha : s.action <;> simp [stepDispatch, h, ha]
    · rcases hg : s.gate with e | b
      · simp [stepDispatch, hg]
      · rcases b <;> rcases ha : s.action <;> simp [stepDispatch, hg, ha]
  · intro j hprep
    have hhost : (if j.runsOn then j.prepHost else .ok ()) = .ok () := by
      cases hr : j.runsOn
      · simp
      · simp [hprep hr]
    rcases hg : j.gate with e | b
    · simp [jobDispatch, hhost, hg]
    · cases b
      · simp [jobDispatch, hhost, hg]
      · rcases hl : jobStepsLoop j.steps ProcessResult.empty <;>
          simp [jobDispatch, hhost, hg, hl]
  · intro w hprep
    have hhost : (if w.runsOn then w.prepHost else .ok ()) = .ok () := by
      cases hr : w.runsOn
      · simp
      · simp [hprep hr]
    rcases hl : wfJobsLoop w.jobs ProcessResult.empty <;>
      simp [workflowDispatch, hhost, hl]

/-- Witness for C9's amended theorem: a plain one-step job (no
`runs_on`, gate true, action succeeding) finishes with a terminal
status. -/
theorem dispatch_status_terminal_amended_witness :
    ((jobDispatch ⟨false, .ok (), .ok true, [⟨.ok true, .ok okResult, false⟩]⟩).1 = .SKIPPED ∨
     (jobDispatch ⟨false, .ok (), .ok true, [⟨.ok true, .ok okResult, false⟩]⟩).1 = .FINISHED) :=
  (dispatch_status_terminal_amended.2.1
    ⟨false, .ok (), .ok true, [⟨.ok true, .ok okResult, false⟩]⟩
    (by intro h; cases h)).1

/-- C10: if the command text after expression expansion (and `strip`)
still contains `"${{"`, `JobContext.exec` raises
`ValueError("Command contains unexpanded variables")` before handing any
command to `bluish.process.run`, leaving the outputs map and the spawn
trace exactly as they were. -/
theorem exec_unexpanded_command_guard (runner : String → ProcessResult)
    (b64encode : String → String) (captureFilename : String)
    (env : List (String × String)) (shellParam : Option String)
    (inheritedShell : String) (workingDir : Option String)
    (expanded : String) (st : ExecState)
    (h : containsFragOpener (pyStrip expanded) = true) :
    jobExec runner b64encode captureFilename env shellParam inheritedShell
      workingDir expanded st =
      (.error "Command contains unexpanded variables", st) := by
  unfold jobExec
  simp [h]

/-- C5 counterexample: evaluating `${{ some.maybe.undefined }}` on a
node where the path is bound in no namespace raises
`ValueError("Variable some.maybe.undefined not found")` — it does not
evaluate to an empty or falsy value. -/
theorem unknown_path_counterexample :
    parseString 20 emptyWorkflowCtx "${{ some.maybe.undefined }}" =
      .error (.varNotFound "some.maybe.undefined") := by
  decide

/-- C5 amended: `_try_get_value` yields `None` for an unbound path
without raising, but `ExprTransformer.var` calls `get_value` with no
default, and `get_value` raises `ValueError("Variable ... not found")`
on `None` — so an expression referencing an unbound path raises instead
of evaluating to a falsy value. -/
theorem unknown_variable_raises_amended (n : Nat) (ctx : Ctx) (name : String)
    (htry : tryGetValue n ctx name false = .ok none)
    (ht : name ≠ "true") (hf : name ≠ "false") :
    evalExpr (n + 2) ctx (.var name) = .error (.varNotFound name) := by
  have h1 : evalExpr (n + 2) ctx (.var name) = getValue (n + 1) ctx name none := by
    simp [evalExpr, ht, hf]
  rw [h1]
  simp only [getValue, htry]
  rfl

/-- Witness for C5's amended theorem at the concrete unbound path. -/
theorem unknown_variable_raises_amended_witness :
    evalExpr 20 emptyWorkflowCtx (.var "some.maybe.undefined") =
      .error (.varNotFound "some.maybe.undefined") :=
  unknown_variable_raises_amended 18 emptyWorkflowCtx "some.maybe.undefined"
    (by decide) (by decide) (by decide)

/-- C7: resolving a bare (dot-free) name tries the `.name` member lookup
and the `var.name` lookup; if both resolve it raises
`ValueError("Ambiguous value reference ...")`, and if exactly one
resolves its value is returned without raising. -/
theorem bare_name_ambiguity (n : Nat) (ctx : Ctx) (name : String)
    (hdot : containsChar '.' name = false) :
    (∀ v1 v2 : Value,
       tryGetValue n ctx ("." ++ name) false = .ok (some v1) →
       tryGetValue n ctx ("var." ++ name) false = .ok (some v2) →
       tryGetValue (n + 1) ctx name false = .error (.ambiguousRef name)) ∧
    (∀ v : Value,
       tryGetValue n ctx ("." ++ name) false = .ok none →
       tryGetValue n ctx ("var." ++ name) false = .ok (some v) →
       tryGetValue (n + 1) ctx name false = .ok (some v)) ∧
    (∀ v : Value,
       tryGetValue n ctx ("." ++ name) false = .ok (some v) →
       tryGetValue n ctx ("var." ++ name) false = .ok none →
       tryGetValue (n + 1) ctx name false = .ok (some v)) := by
  refine ⟨fun v1 v2 h1 h2 => ?_, fun v h1 h2 => ?_, fun v h1 h2 => ?_⟩ <;>
  · simp only [tryGetValue, hdot, Bool.not_false, if_true, h1, h2]
    rfl

/-- Witness for C7: on a node with `var.stdout` set, the bare name
`stdout` resolves both as a member and as a variable, and raises the
ambiguity error. -/
theorem bare_name_ambiguity_witness :
    tryGetValue 6 varStdoutCtx "stdout" false = .error (.ambiguousRef "stdout") :=
  (bare_name_ambiguity 5 varStdoutCtx "stdout" (by decide)).1
    (.vStr "") (.vStr "v") (by decide) (by decide)

/-- C2 counterexample: two evaluations of `"a" + secrets.token` that
differ only in the secret's value produce different redacted renderings.
With `token = "1234"` the result redacts to `a********`, but with
`token = "${{"` the lookup's `prepare_value` re-expands the secret, the
fragment scanner returns it as a plain (non-`SafeString`) chunk, and the
redacted rendering becomes `a${{` — the secret's value itself. -/
theorem secret_redaction_counterexample :
    evalExpr 10 (secretTokenCtx "1234") (.add (.lit "a") (.var "secrets.token")) =
      .ok (.vSafe "a1234" "a********") ∧
    evalExpr 10 (secretTokenCtx "$\x7b\x7b") (.add (.lit "a") (.var "secrets.token")) =
      .ok (.vSafe "a$\x7b\x7b" "a$\x7b\x7b") ∧
    ("a$\x7b\x7b" : String) ≠ "a********" := by
  refine ⟨by decide, by decide, by decide⟩

/-- C2 amended: provided the secret's value does not itself contain
`"${{"`, evaluating `"a" + secrets.token` yields a dual-valued string
whose real value is the concatenation with the secret and whose redacted
rendering is the literal followed by `********` — independent of the
secret's value, which therefore never reaches the log rendering. -/
theorem secret_concat_redaction_amended (n : Nat) (a s : String)
    (h : containsFragOpener s = false) :
    evalExpr (n + 6) (secretTokenCtx s) (.add (.lit a) (.var "secrets.token")) =
      .ok (.vSafe (a ++ s) (a ++ "********")) := by
  have hexp : expandValue (n + 1) (secretTokenCtx s) (.vSafe s "********") =
      .ok (.vSafe s "********") := by
    simp [expandValue, Value.pyStr, h]
  have h3 : prepareValue (n + 2) (secretTokenCtx s) false
      (some (.vSafe s "********")) = .ok (some (.vSafe s "********")) := by
    simp only [prepareValue, Value.isStr, Bool.not_true, Bool.or_self, hexp]
    rfl
  have h4 : tryGetValue (n + 3) (secretTokenCtx s) "secrets.token" false =
      .ok (some (.vSafe s "********")) := by
    have e1 : tryGetValue (n + 3) (secretTokenCtx s) "secrets.token" false =
        prepareValue (n + 2) (secretTokenCtx s) false
          (some (.vSafe s "********")) := rfl
    rw [e1, h3]
  have h5 : getValue (n + 4) (secretTokenCtx s) "secrets.token" none =
      .ok (.vSafe s "********") := by
    simp only [getValue, h4]
    rfl
  have h6 : evalExpr (n + 5) (secretTokenCtx s) (.var "secrets.token") =
      getValue (n + 4) (secretTokenCtx s) "secrets.token" none := rfl
  simp only [evalExpr, h6, h5]
  rfl

/-- Witness for C2's amended theorem at a concrete secret value. -/
theorem secret_concat_redaction_amended_witness :
    evalExpr 10 (secretTokenCtx "1234") (.add (.lit "a") (.var "secrets.token")) =
      .ok (.vSafe ("a" ++ "1234") ("a" ++ "********")) :=
  secret_concat_redaction_amended 4 "a" "1234" (by decide)

/-- Witness for C10: a concrete command with an unexpanded fragment. -/
theorem exec_unexpanded_command_guard_witness :
    jobExec (fun _ => ProcessResult.empty) (fun s => s) "/tmp/cap" [] none "sh"
      none "echo ${{ x }}" ⟨[], []⟩ =
      (.error "Command contains unexpanded variables", ⟨[], []⟩) :=
  exec_unexpanded_command_guard _ _ _ _ _ _ _ _ _ (by decide)

/-! ### The self-referential expansion cycle (C8)

One evaluation cycle of `var x = "${{ x }}"` passes through
`ExprTransformer.var` → `get_value` → `_try_get_value` → `prepare_value`
→ `_expand_expr` → the fragment scanner → `ExprTransformer.var` again.
The unfolding lemmas below are each one definitional evaluation step;
`selfRefEvalExhaustsEveryFuel` chains them around the cycle by induction
on the fuel. -/

theorem evalVarXStep (f : Nat) (c : Ctx) :
    evalExpr (f + 1) c (.var "x") = getValue f c "x" none := rfl

theorem getValueXStep (f : Nat) (c : Ctx) :
    getValue (f + 1) c "x" none =
      (tryGetValue f c "x" false) >>= fun v =>
        match v, (none : Option Value) with
        | none, none => .error (.varNotFound "x")
        | none, some d => .ok d
        | some v, _ => .ok v := rfl

theorem bareXStep (f : Nat) (c : Ctx) :
    tryGetValue (f + 1) c "x" false =
      (tryGetValue f c ".x" false) >>= fun memberResult =>
        (tryGetValue f c "var.x" false) >>= fun varResult =>
          match varResult, memberResult with
          | some _, some _ => .error (.ambiguousRef "x")
          | some v, none => .ok (some v)
          | none, some v => .ok (some v)
          | none, none => .ok none := rfl

theorem dotXStep (f : Nat) (c : Ctx) :
    tryGetValue (f + 1) c ".x" false = .ok none := rfl

theorem varXStep (f : Nat) :
    tryGetValue (f + 1) selfRefCtx "var.x" false =
      prepareValue f selfRefCtx false (some (.vStr "${{ x }}")) := rfl

theorem prepXStep (f : Nat) :
    prepareValue (f + 1) selfRefCtx false (some (.vStr "${{ x }}")) =
      (expandValue f selfRefCtx (.vStr "${{ x }}")) >>= fun r =>
        .ok (some r) := rfl

theorem expandXStep (f : Nat) :
    expandValue (f + 1) selfRefCtx (.vStr "${{ x }}") =
      parseString f selfRefCtx "${{ x }}" := rfl

theorem parseStringXStep (f : Nat) (c : Ctx) (s : String) :
    parseString (f + 1) c s = parseChunks f c s.data .vNone := rfl

theorem chunksXStep (f : Nat) :
    parseChunks (f + 1) selfRefCtx "${{ x }}".data .vNone =
      (evalFragment f selfRefCtx " x ") >>= fun pr =>
        parseChunks f selfRefCtx [] (concat .vNone pr) := rfl

theorem fragXStep (f : Nat) :
    evalFragment (f + 1) selfRefCtx " x " = evalExpr f selfRefCtx (.var "x") := rfl

/-- Every fuel budget is exhausted while evaluating the self-referential
variable: the Python original recurses through the same cycle until the
interpreter stack is exhausted. -/
theorem selfRefEvalExhaustsEveryFuel : ∀ n : Nat,
    evalExpr n selfRefCtx (.var "x") = .error .outOfFuel ∧
    getValue n selfRefCtx "x" none = .error .outOfFuel ∧
    tryGetValue n selfRefCtx "x" false = .error .outOfFuel ∧
    tryGetValue n selfRefCtx "var.x" false = .error .outOfFuel ∧
    prepareValue n selfRefCtx false (some (.vStr "${{ x }}")) = .error .outOfFuel ∧
    expandValue n selfRefCtx (.vStr "${{ x }}") = .error .outOfFuel ∧
    parseString n selfRefCtx "${{ x }}" = .error .outOfFuel ∧
    parseChunks n selfRefCtx "${{ x }}".data .vNone = .error .outOfFuel ∧
    evalFragment n selfRefCtx " x " = .error .outOfFuel := by
  intro n
  induction n with
  | zero => exact ⟨rfl, rfl, rfl, rfl, rfl, rfl, rfl, rfl, rfl⟩
  | succ m ih =>
      obtain ⟨hA, hB, hC, hD, hE, hF, hG, hH, hI⟩ := ih
      refine ⟨?_, ?_, ?_, ?_, ?_, ?_, ?_, ?_, ?_⟩
      · exact (evalVarXStep m selfRefCtx).trans hB
      · rw [getValueXStep m selfRefCtx, hC]
        rfl
      · rw [bareXStep m selfRefCtx]
        cases m with
        | zero => rfl
        | succ k =>
            rw [dotXStep k selfRefCtx, hD]
            rfl
      · rw [varXStep m, hE]
      · rw [prepXStep m, hF]
        rfl
      · exact (expandXStep m).trans hG
      · exact (parseStringXStep m selfRefCtx "${{ x }}").trans hH
      · rw [chunksXStep m, hI]
        rfl
      · exact (fragXStep m).trans hA

/-- C8: the recursion guard the spec describes (depth bound 5 with a
distinct `VariableExpandError`) is absent from the live
`contexts/nodes` `_expand_expr` path: evaluating the self-referential
`var x = "${{ x }}"` exhausts every fuel budget (Python: unbounded
recursion until the interpreter's `RecursionError`), and a six-deep
expansion chain — beyond the claimed depth limit of 5 — expands
successfully instead of raising. -/
theorem expansion_depth_unbounded :
    (∀ fuel : Nat,
      evalExpr fuel selfRefCtx (.var "x") = .error .outOfFuel) ∧
    evalExpr 60 chainSixCtx (.var "x1") = .ok (.vStr "done") :=
  ⟨fun fuel => (selfRefEvalExhaustsEveryFuel fuel).1, by decide⟩

/-- C1: dispatching the diamond `a → {b, c}, b → d, c → d` (an acyclic
graph) raises `CircularDependencyError`: the visited-set check precedes
the `FINISHED` memoization check, so the second reference to `d` is
misreported as a circular reference even though `d` already finished
(its steps ran exactly once, leaving its memoized result intact). -/
theorem diamond_dependency_raises_circular :
    (dispatchJob 20 diamondWorkflow .init "a" false).1 = .error .circularDependency ∧
    (dispatchJob 20 diamondWorkflow .init "a" false).2.trace = [("d", []), ("b", [])] ∧
    ((dispatchJob 20 diamondWorkflow .init "a" false).2.jobState "d").status = .FINISHED ∧
    ((dispatchJob 20 diamondWorkflow .init "a" false).2.jobState "d").result = okResult := by
  refine ⟨by decide, by decide, by decide, by decide⟩

/-- C3: in the cyclic workflow `job1 → job2 → job1`, dispatching either
job raises `CircularDependencyError` via the visited-set, and neither
job's steps execute (the trace stays empty), whatever the jobs' gates,
matrices and step outcomes are. -/
theorem cycle_raises_circular_dependency
    (m1 m2 : List (String × List String)) (g1 g2 : Bool)
    (r1 r2 : ProcessResult) :
    (dispatchJob 6 (twoCycleWorkflow m1 m2 g1 g2 r1 r2) .init "job1" false).1 =
      .error .circularDependency ∧
    (dispatchJob 6 (twoCycleWorkflow m1 m2 g1 g2 r1 r2) .init "job1" false).2.trace = [] ∧
    (dispatchJob 6 (twoCycleWorkflow m1 m2 g1 g2 r1 r2) .init "job2" false).1 =
      .error .circularDependency ∧
    (dispatchJob 6 (twoCycleWorkflow m1 m2 g1 g2 r1 r2) .init "job2" false).2.trace = [] :=
  ⟨rfl, rfl, rfl, rfl⟩

end Bluish
